import Mathlib

/-!
# Verification of the `datarepository` Redis keyspace core

A shallow embedding of `datarepository.redis.go`: the key grammar and
validator, the identifier codec, and the repository operations
(`Create`, `Update`, `Delete`, `List`, `Search`, `AcquireLock`,
`ReleaseLock`, `Publish`) over an abstract state-passing client that
stands for the external Redis connection.

Modelling conventions:
* Go strings are `List Char` (`Str`).  Go's `len` on a string counts
  UTF-8 bytes, so the length checks use `utf8Len`, the sum of the
  UTF-8 sizes of the characters.
* `strings.Split` is `goSplit` (faithful for a non-empty separator;
  the constructor `newRedisRepository` replaces an empty configured
  separator by the default `":"`, so repositories never hold an empty
  separator).
* Fallible Go functions returning `(T, error)` become `Except`-valued
  functions; backend calls also thread the backend state.
* The Go struct fields `prefix` / `separator` are the structure fields
  `pre` / `sep` (`prefix` is a Lean keyword).
-/

/-- A Go string, modelled as its list of characters. -/
abbrev Str := List Char

/-- Embed a Lean string literal as a `Str`. -/
def strOf (s : String) : Str := s.data

/-- Go `len` on a string: the number of UTF-8 bytes. -/
def utf8Len (s : Str) : Nat := (s.map Char.utf8Size).sum

/-- `MinKeyLength = 5`. -/
def MinKeyLength : Nat := 5

/-- `MaxKeyLength = 256`. -/
def MaxKeyLength : Nat := 256

/-- `DefaultKeyPrefix = "app"`. -/
def DefaultKeyPre : Str := strOf ("app")

/-- `DefaultKeySeparator = ":"`. -/
def DefaultKeySep : Str := strOf (":")

/-- `KeyPartLock = "lock"`. -/
def KeyPartLock : Str := strOf ("lock")

/-- `KeyPartPubSubChannel = "channel"`. -/
def KeyPartPubSubChannel : Str := strOf ("channel")

/-- One character of the class `[a-zA-Z0-9_:.-]` of `validKeyRegex`. -/
def isValidKeyChar (ch : Char) : Bool :=
  ch.isAlphanum || ch == '_' || ch == ':' || ch == '.' || ch == '-'

/-- `validKeyRegex.MatchString`: the regex is `^[a-zA-Z0-9_:.-]+$`, so a
match means the string is non-empty and every character is in the class. -/
def validKeyMatch (key : Str) : Bool :=
  !key.isEmpty && key.all isValidKeyChar

/-- `entityPrefixRegex.MatchString`: the regex is `^[a-zA-Z][a-zA-Z0-9_]*$`. -/
def entityPreMatch (s : Str) : Bool :=
  match s with
  | [] => false
  | ch :: rest => ch.isAlpha && rest.all (fun c => c.isAlphanum || c == '_')

/-- Fuel-indexed worker for `goSplit`; the fuel only serves to make the
recursion structural and is always at least the length of the string. -/
def goSplitFuel (sep : Str) : Nat → Str → List Str
  | _, [] => [[]]
  | 0, s => [s]
  | fuel + 1, ch :: rest =>
    if !sep.isEmpty && sep.isPrefixOf (ch :: rest) then
      [] :: goSplitFuel sep fuel ((ch :: rest).drop sep.length)
    else
      match goSplitFuel sep fuel rest with
      | [] => [[ch]]
      | p :: ps => (ch :: p) :: ps

/-- Go `strings.Split s sep`: cut `s` at each leftmost, non-overlapping
occurrence of `sep` (faithful for non-empty `sep`, the only case the
repository can produce). -/
def goSplit (sep s : Str) : List Str := goSplitFuel sep s.length s

/-- Splitting on a single-character separator, structurally. -/
def splitSep (c : Char) : Str → List Str
  | [] => [[]]
  | ch :: rest =>
    if ch = c then
      [] :: splitSep c rest
    else
      match splitSep c rest with
      | [] => [[ch]]
      | p :: ps => (ch :: p) :: ps

/-- Go `strings.Join parts sep`. -/
def joinSep (sep : Str) : List Str → Str
  | [] => []
  | [p] => p
  | p :: q :: ps => p ++ sep ++ joinSep sep (q :: ps)

/-- The sentinel error values of the identifier/key layer
(`ErrEmptyKeyPart`, `ErrInvalidKeyLength`, …).  `invalidKeyPre` models
`ErrInvalidKeyPrefix` and `invalidEntityPre` models
`ErrInvalidEntityPrefix`. -/
inductive KeyErr where
  | emptyKeyPart
  | invalidKeyFormat
  | invalidKeyLength
  | invalidKeyPre
  | invalidKeySuffix
  | invalidKeyChars
  | invalidEntityPre
  | unsupportedIdentifier
deriving DecidableEq, Repr

/-- The `RedisRepository` configuration: `pre` is the Go field `prefix`,
`sep` the Go field `separator` (the client handle is passed separately
to each operation). -/
structure RedisRepository where
  pre : Str
  sep : Str
deriving DecidableEq, Repr

/-- `NewRedisRepository`: an empty configured prefix or separator falls
back to the default (`"app"` / `":"`). -/
def newRedisRepository (keyPre keySep : Str) : RedisRepository :=
  { pre := if keyPre = [] then DefaultKeyPre else keyPre,
    sep := if keySep = [] then DefaultKeySep else keySep }

/-- The repository with the default configuration. -/
def defRepo : RedisRepository := newRedisRepository [] []

/-- `(r *RedisRepository) validateKey`, transcribed check for check:
length bounds, character class, prefix, non-empty second part, and the
empty-part scan, in that order, first failure winning. -/
def RedisRepository.validateKey (r : RedisRepository) (key : Str) : Except KeyErr Unit :=
  if utf8Len key < MinKeyLength ∨ MaxKeyLength < utf8Len key then
    .error .invalidKeyLength
  else if !validKeyMatch key then
    .error .invalidKeyChars
  else if !(r.pre ++ r.sep).isPrefixOf key then
    .error .invalidKeyPre
  else if (goSplit r.sep key).length < 2 ∨ (goSplit r.sep key)[1]? = some [] then
    .error .invalidKeySuffix
  else if (goSplit r.sep key).any List.isEmpty then
    .error .emptyKeyPart
  else
    .ok ()

/-- `(r *RedisRepository) validateEntityPrefix`. -/
def RedisRepository.validateEntityPre (r : RedisRepository) (entityPre : Str) :
    Except KeyErr Unit :=
  if !entityPreMatch entityPre then .error .invalidEntityPre else .ok ()

/-- `(r *RedisRepository) createKey(parts...)`: join `prefix :: parts`
with the separator and validate the result. -/
def RedisRepository.createKey (r : RedisRepository) (parts : List Str) :
    Except KeyErr Str :=
  let key := joinSep r.sep (r.pre :: parts)
  match r.validateKey key with
  | .error e => .error e
  | .ok _ => .ok key

/-- `(r *RedisRepository) parseKey`: validate, split on the separator,
and drop the first part. -/
def RedisRepository.parseKey (r : RedisRepository) (key : Str) :
    Except KeyErr (List Str) :=
  match r.validateKey key with
  | .error e => .error e
  | .ok _ => .ok ((goSplit r.sep key).drop 1)

/-- The `EntityIdentifier` interface, closed over the variants the codec
recognises: `redis` is `RedisIdentifier{EntityPrefix, ID}`, `simple` is
`SimpleIdentifier` (a plain string, declared in a repository file outside
the excerpt and used here only as a string wrapper), and `other` stands
for any unrecognised implementation (the codec's `default` case). -/
inductive EntityIdentifier where
  | redis (entityPre : Str) (id : Str)
  | simple (s : Str)
  | other
deriving DecidableEq, Repr

/-- `(r *RedisRepository) identifierToKey`. -/
def RedisRepository.identifierToKey (r : RedisRepository) :
    EntityIdentifier → Except KeyErr Str
  | .redis entityPre id =>
    match r.validateEntityPre entityPre with
    | .error e => .error e
    | .ok _ => r.createKey [entityPre, id]
  | .simple s => r.createKey [s]
  | .other => .error .unsupportedIdentifier

/-- `(r *RedisRepository) keyToIdentifier`: parse, then decode by shape
(two or more parts give a `RedisIdentifier` from the first two, a single
part gives a `SimpleIdentifier`). -/
def RedisRepository.keyToIdentifier (r : RedisRepository) (key : Str) :
    Except KeyErr EntityIdentifier :=
  match r.parseKey key with
  | .error e => .error e
  | .ok parts =>
    match parts with
    | p0 :: p1 :: _ => .ok (.redis p0 p1)
    | single => .ok (.simple (joinSep r.sep single))

deriving instance DecidableEq for Except

set_option maxRecDepth 8000

/-- `validateKey` succeeds exactly when the five checks, in the code's
own phrasing, all pass. -/
theorem validateKey_eq_ok (r : RedisRepository) (key : Str) :
    r.validateKey key = .ok () ↔
      (MinKeyLength ≤ utf8Len key ∧ utf8Len key ≤ MaxKeyLength) ∧
      validKeyMatch key = true ∧
      (r.pre ++ r.sep).isPrefixOf key = true ∧
      (2 ≤ (goSplit r.sep key).length ∧ (goSplit r.sep key)[1]? ≠ some []) ∧
      (goSplit r.sep key).any List.isEmpty = false := by
  unfold RedisRepository.validateKey
  split_ifs with h1 h2 h3 h4 h5
  · exact iff_of_false (by simp) (by rintro ⟨⟨ha, hb⟩, -⟩; omega)
  · exact iff_of_false (by simp) (by rintro ⟨-, hm, -⟩; simp [hm] at h2)
  · exact iff_of_false (by simp) (by rintro ⟨-, -, hp, -⟩; simp [hp] at h3)
  · refine iff_of_false (by simp) ?_
    rintro ⟨-, -, -, ⟨hl, hs⟩, -⟩
    rcases h4 with h | h
    · omega
    · exact hs h
  · exact iff_of_false (by simp) (by rintro ⟨-, -, -, -, ha⟩; simp [ha] at h5)
  · refine iff_of_true rfl ⟨by omega, by simpa using h2, by simpa using h3, ?_,
      by simp only [Bool.not_eq_true] at h5; exact h5⟩
    push_neg at h4
    exact ⟨by omega, h4.2⟩

/-- A regex match of `^[a-zA-Z0-9_:.-]+$`, spelled out. -/
theorem validKeyMatch_eq_true (key : Str) :
    validKeyMatch key = true ↔ key ≠ [] ∧ ∀ ch ∈ key, isValidKeyChar ch = true := by
  simp [validKeyMatch, List.all_eq_true, List.isEmpty_iff]

/-- The empty-part scan finds nothing exactly when all parts are non-empty. -/
theorem anyIsEmpty_eq_false (l : List Str) :
    l.any List.isEmpty = false ↔ ∀ p ∈ l, p ≠ [] := by
  rw [← Bool.not_eq_true, List.any_eq_true]
  simp only [List.isEmpty_iff]
  constructor
  · intro h p hp hp0
    exact h ⟨p, hp, hp0⟩
  · rintro h ⟨p, hp, hp0⟩
    exact h p hp hp0

/-- Claim C1: `validateKey k` succeeds iff `k` has UTF-8 length between
5 and 256 inclusive, every character is alphanumeric, underscore, colon,
dot or hyphen, `k` starts with the configured prefix followed by the
configured separator, splitting on the separator yields at least two
parts with a non-empty second part, and no part of the split is empty. -/
theorem validateKey_ok_iff (r : RedisRepository) (key : Str) :
    r.validateKey key = .ok () ↔
      (MinKeyLength ≤ utf8Len key ∧ utf8Len key ≤ MaxKeyLength) ∧
      (∀ ch ∈ key, isValidKeyChar ch = true) ∧
      (r.pre ++ r.sep) <+: key ∧
      (2 ≤ (goSplit r.sep key).length ∧ (goSplit r.sep key)[1]? ≠ some []) ∧
      (∀ p ∈ goSplit r.sep key, p ≠ []) := by
  rw [validateKey_eq_ok]
  simp only [validKeyMatch_eq_true, List.isPrefixOf_iff_prefix, anyIsEmpty_eq_false]
  constructor
  · rintro ⟨hb, hm, hp, hs, ha⟩
    exact ⟨hb, hm.2, hp, hs, ha⟩
  · rintro ⟨hb, hm, hp, hs, ha⟩
    refine ⟨hb, ⟨?_, hm⟩, hp, hs, ha⟩
    rintro rfl
    simp [utf8Len, MinKeyLength] at hb

/-- Claim C2: a failing key surfaces the error of the first failing
check, in the fixed order length, character set, prefix, second-part
non-emptiness, empty-part scan, and the five error kinds are pairwise
distinct. -/
theorem validateKey_first_error (r : RedisRepository) (key : Str) :
    ((utf8Len key < MinKeyLength ∨ MaxKeyLength < utf8Len key) →
      r.validateKey key = .error .invalidKeyLength) ∧
    ((MinKeyLength ≤ utf8Len key ∧ utf8Len key ≤ MaxKeyLength) →
      validKeyMatch key = false →
      r.validateKey key = .error .invalidKeyChars) ∧
    ((MinKeyLength ≤ utf8Len key ∧ utf8Len key ≤ MaxKeyLength) →
      validKeyMatch key = true →
      (r.pre ++ r.sep).isPrefixOf key = false →
      r.validateKey key = .error .invalidKeyPre) ∧
    ((MinKeyLength ≤ utf8Len key ∧ utf8Len key ≤ MaxKeyLength) →
      validKeyMatch key = true →
      (r.pre ++ r.sep).isPrefixOf key = true →
      ((goSplit r.sep key).length < 2 ∨ (goSplit r.sep key)[1]? = some []) →
      r.validateKey key = .error .invalidKeySuffix) ∧
    ((MinKeyLength ≤ utf8Len key ∧ utf8Len key ≤ MaxKeyLength) →
      validKeyMatch key = true →
      (r.pre ++ r.sep).isPrefixOf key = true →
      (2 ≤ (goSplit r.sep key).length ∧ (goSplit r.sep key)[1]? ≠ some []) →
      (goSplit r.sep key).any List.isEmpty = true →
      r.validateKey key = .error .emptyKeyPart) ∧
    [KeyErr.invalidKeyLength, KeyErr.invalidKeyChars, KeyErr.invalidKeyPre,
      KeyErr.invalidKeySuffix, KeyErr.emptyKeyPart].Nodup := by
  refine ⟨?_, ?_, ?_, ?_, ?_, by decide⟩
  · intro h1
    unfold RedisRepository.validateKey
    rw [if_pos h1]
  · intro hb hm
    unfold RedisRepository.validateKey
    rw [if_neg (by omega), if_pos (by simp [hm])]
  · intro hb hm hp
    unfold RedisRepository.validateKey
    rw [if_neg (by omega), if_neg (by simp [hm]), if_pos (by simp [hp])]
  · intro hb hm hp h4
    unfold RedisRepository.validateKey
    rw [if_neg (by omega), if_neg (by simp [hm]), if_neg (by simp [hp]), if_pos h4]
  · intro hb hm hp h4 h5
    unfold RedisRepository.validateKey
    rw [if_neg (by omega), if_neg (by simp [hm]), if_neg (by simp [hp]),
      if_neg ?_, if_pos h5]
    rintro (h | h)
    · omega
    · exact h4.2 h

/-- Witness for C2: `"app:x:"` passes the first four checks and fails
the empty-part scan, so `validateKey` reports `ErrEmptyKeyPart`. -/
theorem validateKey_first_error_witness :
    ((MinKeyLength ≤ utf8Len (strOf ("app:x:")) ∧
        utf8Len (strOf ("app:x:")) ≤ MaxKeyLength) ∧
      validKeyMatch (strOf ("app:x:")) = true ∧
      (defRepo.pre ++ defRepo.sep).isPrefixOf (strOf ("app:x:")) = true ∧
      (2 ≤ (goSplit defRepo.sep (strOf ("app:x:"))).length ∧
        (goSplit defRepo.sep (strOf ("app:x:")))[1]? ≠ some []) ∧
      (goSplit defRepo.sep (strOf ("app:x:"))).any List.isEmpty = true) ∧
    defRepo.validateKey (strOf ("app:x:")) = .error .emptyKeyPart := by
  refine ⟨⟨by decide, by decide, by decide, ⟨by decide, by decide⟩, by decide⟩, ?_⟩
  exact (validateKey_first_error defRepo (strOf ("app:x:"))).2.2.2.2.1
    (by decide) (by decide) (by decide) ⟨by decide, by decide⟩ (by decide)

/-- Splitting never yields an empty list of parts. -/
theorem splitSep_ne_nil (c : Char) (s : Str) : splitSep c s ≠ [] := by
  induction s with
  | nil => simp [splitSep]
  | cons ch rest ih =>
    simp only [splitSep]
    split_ifs with h
    · simp
    · rcases hsp : splitSep c rest with - | ⟨p, ps⟩ <;> simp [hsp]

/-- A string free of the separator character is a single part. -/
theorem splitSep_sepFree (c : Char) (s : Str) (h : c ∉ s) : splitSep c s = [s] := by
  induction s with
  | nil => rfl
  | cons ch rest ih =>
    have hch : ¬ch = c := by rintro rfl; exact h (List.mem_cons_self ch rest)
    have hrest : c ∉ rest := fun hm => h (List.mem_cons_of_mem ch hm)
    simp [splitSep, if_neg hch, ih hrest]

/-- Splitting distributes over a separator occurrence. -/
theorem splitSep_append (c : Char) (a b : Str) :
    splitSep c (a ++ c :: b) = splitSep c a ++ splitSep c b := by
  induction a with
  | nil => simp [splitSep]
  | cons ch a' ih =>
    by_cases hch : ch = c
    · subst hch
      simp [splitSep, ih]
    · rcases hq : splitSep c a' with - | ⟨q, qs⟩
      · exact absurd hq (splitSep_ne_nil c a')
      · rw [List.cons_append]
        simp only [splitSep, if_neg hch]
        rw [ih, hq]
        rfl

/-- For a single-character separator the fuelled Go split agrees with
the structural split, given enough fuel. -/
theorem goSplitFuel_singleton (c : Char) :
    ∀ (fuel : Nat) (s : Str), s.length ≤ fuel → goSplitFuel [c] fuel s = splitSep c s := by
  intro fuel
  induction fuel with
  | zero =>
    intro s hs
    cases s with
    | nil => rfl
    | cons ch rest => simp at hs
  | succ n ih =>
    intro s hs
    cases s with
    | nil => rfl
    | cons ch rest =>
      have hlen : rest.length ≤ n := by simpa using hs
      simp only [goSplitFuel, splitSep]
      rw [show (!([c] : Str).isEmpty && ([c] : Str).isPrefixOf (ch :: rest)) = (c == ch) from by
        simp [List.isPrefixOf]]
      by_cases hch : ch = c
      · subst hch
        rw [if_pos (by simp), if_pos rfl]
        simp only [List.length_cons, List.drop_succ_cons, List.drop_zero]
        exact congrArg ([] :: ·) (ih rest hlen)
      · rw [if_neg (by simp [Ne.symm hch]), if_neg hch, ih rest hlen]

/-- `strings.Split` on a single-character separator is `splitSep`. -/
theorem goSplit_singleton (c : Char) (s : Str) : goSplit [c] s = splitSep c s :=
  goSplitFuel_singleton c s.length s le_rfl

/-- Go `len` adds over concatenation. -/
theorem utf8Len_append (a b : Str) : utf8Len (a ++ b) = utf8Len a + utf8Len b := by
  simp [utf8Len]

/-- A key produced by `createKey` is the validated join of the prefix
and the given parts. -/
theorem createKey_ok (r : RedisRepository) (parts : List Str) (key : Str)
    (h : r.createKey parts = .ok key) :
    r.validateKey key = .ok () ∧ key = joinSep r.sep (r.pre :: parts) := by
  simp only [RedisRepository.createKey] at h
  cases hv : r.validateKey (joinSep r.sep (r.pre :: parts)) with
  | error e => rw [hv] at h; cases h
  | ok u =>
    rw [hv] at h
    cases h
    exact ⟨by cases u; exact hv, rfl⟩

/-- Claim C4: for a key that passes validation, decoding is purely by
shape: with two or more parts after the leading part, the result is a
composite identifier from exactly the first two parts (further parts are
dropped); with exactly one part it is a simple identifier of that part. -/
theorem keyToIdentifier_shape (r : RedisRepository) (key : Str)
    (hv : r.validateKey key = .ok ()) :
    (∀ p0 p1 rest, (goSplit r.sep key).drop 1 = p0 :: p1 :: rest →
      r.keyToIdentifier key = .ok (.redis p0 p1)) ∧
    (∀ p, (goSplit r.sep key).drop 1 = [p] →
      r.keyToIdentifier key = .ok (.simple p)) := by
  constructor
  · intro p0 p1 rest hp
    simp only [RedisRepository.keyToIdentifier, RedisRepository.parseKey, hv, hp]
  · intro p hp
    simp only [RedisRepository.keyToIdentifier, RedisRepository.parseKey, hv, hp]
    rfl

/-- Witness for C4: `"app:user:42:extra"` decodes to the composite
identifier `{user, 42}` (the part `extra` is dropped), and
`"app:user1"` decodes to the simple identifier `user1`. -/
theorem keyToIdentifier_shape_witness :
    defRepo.validateKey (strOf ("app:user:42:extra")) = .ok () ∧
    defRepo.keyToIdentifier (strOf ("app:user:42:extra")) =
      .ok (.redis (strOf ("user")) (strOf ("42"))) ∧
    defRepo.validateKey (strOf ("app:user1")) = .ok () ∧
    defRepo.keyToIdentifier (strOf ("app:user1")) = .ok (.simple (strOf ("user1"))) := by
  refine ⟨by decide, ?_, by decide, ?_⟩
  · exact (keyToIdentifier_shape defRepo (strOf ("app:user:42:extra")) (by decide)).1
      (strOf ("user")) (strOf ("42")) [strOf ("extra")] (by decide)
  · exact (keyToIdentifier_shape defRepo (strOf ("app:user1")) (by decide)).2
      (strOf ("user1")) (by decide)

/-- Claim C10: on any key accepted by `validateKey`, `keyToIdentifier`
succeeds — it has no failure path beyond the validation itself, so the
decode-skip branches of `List`/`Search` are unreachable for keys that
already passed validation. -/
theorem keyToIdentifier_total_on_valid (r : RedisRepository) (key : Str)
    (hv : r.validateKey key = .ok ()) :
    ∃ id, r.keyToIdentifier key = .ok id := by
  simp only [RedisRepository.keyToIdentifier, RedisRepository.parseKey, hv]
  rcases hp : (goSplit r.sep key).drop 1 with - | ⟨p, - | ⟨q, qs⟩⟩ <;>
    exact ⟨_, rfl⟩

/-- Witness for C10 at the valid key `"app:user:42"`. -/
theorem keyToIdentifier_total_on_valid_witness :
    defRepo.validateKey (strOf ("app:user:42")) = .ok () ∧
    ∃ id, defRepo.keyToIdentifier (strOf ("app:user:42")) = .ok id :=
  ⟨by decide, keyToIdentifier_total_on_valid defRepo (strOf ("app:user:42")) (by decide)⟩

/-- The identifier's own parts are free of the separator character
(the round-trip side condition of the specification). -/
def idSepFree (c : Char) : EntityIdentifier → Prop
  | .redis entityPre id => c ∉ entityPre ∧ c ∉ id
  | .simple s => c ∉ s
  | .other => True

instance instDecIdSepFree (c : Char) : (id : EntityIdentifier) → Decidable (idSepFree c id)
  | .redis entityPre id => inferInstanceAs (Decidable (c ∉ entityPre ∧ c ∉ id))
  | .simple s => inferInstanceAs (Decidable (c ∉ s))
  | .other => inferInstanceAs (Decidable True)

/-- Claim C3: whenever the configured separator is a single character
that occurs neither in the configured prefix nor in the identifier's own
parts, and `identifierToKey` succeeds, then `keyToIdentifier` decodes
the produced key back to an identifier equal to the original — for both
variants. -/
theorem fromKey_toKey_roundTrip (r : RedisRepository) (c : Char)
    (hsep : r.sep = [c]) (hpc : c ∉ r.pre)
    (id : EntityIdentifier) (hid : idSepFree c id) (key : Str)
    (hk : r.identifierToKey id = .ok key) :
    r.keyToIdentifier key = .ok id := by
  cases id with
  | other => simp [RedisRepository.identifierToKey] at hk
  | simple s =>
    simp only [RedisRepository.identifierToKey] at hk
    obtain ⟨hv, hkey⟩ := createKey_ok r [s] key hk
    have hs : c ∉ s := hid
    have hparts : (goSplit r.sep key).drop 1 = [s] := by
      rw [hkey, hsep]
      have hj : joinSep [c] [r.pre, s] = r.pre ++ c :: s := by
        simp [joinSep]
      rw [hj, goSplit_singleton, splitSep_append,
        splitSep_sepFree c r.pre hpc, splitSep_sepFree c s hs]
      rfl
    simp only [RedisRepository.keyToIdentifier, RedisRepository.parseKey, hv, hparts]
    rfl
  | redis ep i =>
    simp only [RedisRepository.identifierToKey] at hk
    cases hve : r.validateEntityPre ep with
    | error e => rw [hve] at hk; cases hk
    | ok u =>
      rw [hve] at hk
      obtain ⟨hv, hkey⟩ := createKey_ok r [ep, i] key hk
      obtain ⟨hep, hi⟩ := hid
      have hparts : (goSplit r.sep key).drop 1 = [ep, i] := by
        rw [hkey, hsep]
        have hj : joinSep [c] [r.pre, ep, i] = r.pre ++ c :: (ep ++ c :: i) := by
          simp [joinSep]
        rw [hj, goSplit_singleton, splitSep_append,
          splitSep_append, splitSep_sepFree c r.pre hpc,
          splitSep_sepFree c ep hep, splitSep_sepFree c i hi]
        rfl
      simp only [RedisRepository.keyToIdentifier, RedisRepository.parseKey, hv, hparts]

/-- Witness for C3: under the default configuration, the composite
identifier `{user, 42}` and the simple identifier `user1` both
round-trip through their keys. -/
theorem fromKey_toKey_roundTrip_witness :
    (defRepo.sep = [':'] ∧ ':' ∉ defRepo.pre ∧
      idSepFree ':' (.redis (strOf ("user")) (strOf ("42"))) ∧
      defRepo.identifierToKey (.redis (strOf ("user")) (strOf ("42"))) =
        .ok (strOf ("app:user:42")) ∧
      idSepFree ':' (.simple (strOf ("user1"))) ∧
      defRepo.identifierToKey (.simple (strOf ("user1"))) = .ok (strOf ("app:user1"))) ∧
    defRepo.keyToIdentifier (strOf ("app:user:42")) =
      .ok (.redis (strOf ("user")) (strOf ("42"))) ∧
    defRepo.keyToIdentifier (strOf ("app:user1")) = .ok (.simple (strOf ("user1"))) := by
  refine ⟨⟨by decide, by decide, by decide, by decide, by decide, by decide⟩, ?_, ?_⟩
  · exact fromKey_toKey_roundTrip defRepo ':' (by decide) (by decide)
      (.redis (strOf ("user")) (strOf ("42"))) (by decide) (strOf ("app:user:42")) (by decide)
  · exact fromKey_toKey_roundTrip defRepo ':' (by decide) (by decide)
      (.simple (strOf ("user1"))) (by decide) (strOf ("app:user1")) (by decide)

/-- An error value reported by the backend client (network, timeout,
backend-internal); its content is opaque, so a plain string. -/
abbrev BErr := String

/-- A dynamically typed Redis reply value (`interface{}`): the cases the
`Search` code inspects are `int64`, `string` and `[]interface{}`;
`other` stands for every other dynamic type. -/
inductive RVal where
  | int (i : Int)
  | str (s : Str)
  | arr (xs : List RVal)
  | other

/-- The argument list `FT.SEARCH index query LIMIT offset limit SORTBY
sortBy sortDir` that `Search` sends through `client.Do`. -/
structure SearchArgs where
  index : Str
  query : Str
  offset : Int
  limit : Int
  sortBy : Str
  sortDir : Str
deriving DecidableEq

/-- The backend primitives of `redis.UniversalClient` that the
repository calls, as state-passing functions over an abstract backend
state `σ`: `existsCount` is `Exists`, `jsonSet` is `JSONSet` (returning
`nil` or an error), `del` is `Del`, `keysCmd` is `Keys`, `ftSearch` is
`Do` with `FT.SEARCH` arguments, `setNX` is `SetNX` (value and TTL as
integers), and `publishMsg` is `Publish`. -/
structure RedisClient (σ V : Type) where
  existsCount : σ → Str → Except BErr Int × σ
  jsonSet : σ → Str → V → Option BErr × σ
  del : σ → Str → Except BErr Int × σ
  keysCmd : σ → Str → Except BErr (List Str) × σ
  ftSearch : σ → SearchArgs → Except BErr RVal × σ
  setNX : σ → Str → Int → Int → Except BErr Bool × σ
  publishMsg : σ → Str → V → Option BErr × σ

/-- The errors a repository operation can return.  `invalidIdentifier`
and `operationFailed` model `fmt.Errorf("%w: %v", ErrInvalidIdentifier/
ErrOperationFailed, cause)`; `raw` models a backend error value returned
as-is, without wrapping (`errors.Is(err, ErrOperationFailed)` is false
for it); the two `unexpected…` cases are the plain `fmt.Errorf` strings
in `Search`. -/
inductive RepoErr where
  | invalidIdentifier (cause : KeyErr)
  | operationFailed (cause : BErr)
  | alreadyExists
  | notFound
  | raw (cause : BErr)
  | unexpectedSearchFormat
  | unexpectedTotalFormat
deriving DecidableEq

/-- Is this error the `OperationFailed` wrapping (what
`errors.Is(err, ErrOperationFailed)` tests)? -/
def RepoErr.isOperationFailed : RepoErr → Bool
  | .operationFailed _ => true
  | _ => false

/-- `(r *RedisRepository) Create`. -/
def RedisRepository.Create {σ V : Type} (r : RedisRepository) (c : RedisClient σ V)
    (s : σ) (identifier : EntityIdentifier) (value : V) : Except RepoErr Unit × σ :=
  match r.identifierToKey identifier with
  | .error e => (.error (.invalidIdentifier e), s)
  | .ok key =>
    match c.existsCount s key with
    | (.error e, s1) => (.error (.operationFailed e), s1)
    | (.ok n, s1) =>
      if n = 1 then (.error .alreadyExists, s1)
      else
        match c.jsonSet s1 key value with
        | (some e, s2) => (.error (.raw e), s2)
        | (none, s2) => (.ok (), s2)

/-- `(r *RedisRepository) Update`. -/
def RedisRepository.Update {σ V : Type} (r : RedisRepository) (c : RedisClient σ V)
    (s : σ) (identifier : EntityIdentifier) (value : V) : Except RepoErr Unit × σ :=
  match r.identifierToKey identifier with
  | .error e => (.error (.invalidIdentifier e), s)
  | .ok key =>
    match c.existsCount s key with
    | (.error e, s1) => (.error (.operationFailed e), s1)
    | (.ok n, s1) =>
      if n = 0 then (.error .notFound, s1)
      else
        match c.jsonSet s1 key value with
        | (some e, s2) => (.error (.raw e), s2)
        | (none, s2) => (.ok (), s2)

/-- `(r *RedisRepository) Delete`. -/
def RedisRepository.Delete {σ V : Type} (r : RedisRepository) (c : RedisClient σ V)
    (s : σ) (identifier : EntityIdentifier) : Except RepoErr Unit × σ :=
  match r.identifierToKey identifier with
  | .error e => (.error (.invalidIdentifier e), s)
  | .ok key =>
    match c.del s key with
    | (.error e, s1) => (.error (.operationFailed e), s1)
    | (.ok n, s1) =>
      if n = 0 then (.error .notFound, s1) else (.ok (), s1)

/-- The per-key body of the `List` loop: `none` exactly when the key is
skipped (failed validation or identifier conversion). -/
def RedisRepository.decodeValidKey (r : RedisRepository) (key : Str) :
    Option EntityIdentifier :=
  match r.validateKey key with
  | .error _ => none
  | .ok _ =>
    match r.keyToIdentifier key with
    | .error _ => none
    | .ok id => some id

/-- The `List` loop over the enumerated keys: skip a key on failed
validation or failed identifier conversion, keep backend order. -/
def listCollect (r : RedisRepository) : List Str → List EntityIdentifier
  | [] => []
  | key :: rest =>
    match r.validateKey key with
    | .error _ => listCollect r rest
    | .ok _ =>
      match r.keyToIdentifier key with
      | .error _ => listCollect r rest
      | .ok id => id :: listCollect r rest

/-- The result type of `List` (named so that the declaration
`RedisRepository.List` can state it without referring to itself). -/
abbrev IdentifierList := List EntityIdentifier

/-- `(r *RedisRepository) List`. -/
def RedisRepository.List {σ V : Type} (r : RedisRepository) (c : RedisClient σ V)
    (s : σ) (pattern : EntityIdentifier) : Except RepoErr IdentifierList × σ :=
  match r.identifierToKey pattern with
  | .error e => (.error (.invalidIdentifier e), s)
  | .ok patternKey =>
    match c.keysCmd s (patternKey ++ ['*']) with
    | (.error e, s1) => (.error (.operationFailed e), s1)
    | (.ok keys, s1) => (.ok (listCollect r keys), s1)

/-- The `Search` loop from index 1 in steps of 2 over the reply array:
element `i` must be a string key (else skipped), validated and decoded
like in `List`; element `i+1` (the score) is passed over. -/
def collectKeys (r : RedisRepository) : List RVal → List EntityIdentifier
  | [] => []
  | [x] =>
    match x with
    | .str key => (r.decodeValidKey key).toList
    | _ => []
  | x :: _ :: rest =>
    match x with
    | .str key =>
      match r.decodeValidKey key with
      | none => collectKeys r rest
      | some id => id :: collectKeys r rest
    | _ => collectKeys r rest

/-- `(r *RedisRepository) Search`. -/
def RedisRepository.Search {σ V : Type} (r : RedisRepository) (c : RedisClient σ V)
    (s : σ) (query : Str) (offset limit : Int) (sortBy sortDir : Str) :
    Except RepoErr IdentifierList × σ :=
  match c.ftSearch s ⟨r.pre, query, offset, limit, sortBy, sortDir⟩ with
  | (.error e, s1) => (.error (.operationFailed e), s1)
  | (.ok res, s1) =>
    match res with
    | .arr array =>
      match array with
      | [] => (.error .unexpectedSearchFormat, s1)
      | first :: rest =>
        match first with
        | .int totalResults =>
          if totalResults = 0 then (.ok [], s1)
          else (.ok (collectKeys r rest), s1)
        | _ => (.error .unexpectedTotalFormat, s1)
    | _ => (.error .unexpectedSearchFormat, s1)

/-- The derived lock key `key + separator + KeyPartLock` of
`AcquireLock`/`ReleaseLock`. -/
def RedisRepository.lockKey (r : RedisRepository) (key : Str) : Str :=
  key ++ r.sep ++ KeyPartLock

/-- `(r *RedisRepository) AcquireLock`. -/
def RedisRepository.AcquireLock {σ V : Type} (r : RedisRepository) (c : RedisClient σ V)
    (s : σ) (identifier : EntityIdentifier) (ttl : Int) : Except RepoErr Bool × σ :=
  match r.identifierToKey identifier with
  | .error e => (.error (.invalidIdentifier e), s)
  | .ok key =>
    match c.setNX s (r.lockKey key) 1 ttl with
    | (.error e, s1) => (.error (.operationFailed e), s1)
    | (.ok acquired, s1) => (.ok acquired, s1)

/-- `(r *RedisRepository) ReleaseLock`. -/
def RedisRepository.ReleaseLock {σ V : Type} (r : RedisRepository) (c : RedisClient σ V)
    (s : σ) (identifier : EntityIdentifier) : Except RepoErr Unit × σ :=
  match r.identifierToKey identifier with
  | .error e => (.error (.invalidIdentifier e), s)
  | .ok key =>
    match c.del s (r.lockKey key) with
    | (.error e, s1) => (.error (.operationFailed e), s1)
    | (.ok n, s1) =>
      if n = 0 then (.error .notFound, s1) else (.ok (), s1)

/-- `(r *RedisRepository) Publish`: the backend error, if any, is
returned as-is (`return r.client.Publish(...).Err()`). -/
def RedisRepository.Publish {σ V : Type} (r : RedisRepository) (c : RedisClient σ V)
    (s : σ) (channel : Str) (message : V) : Except RepoErr Unit × σ :=
  match c.publishMsg s (r.pre ++ r.sep ++ KeyPartPubSubChannel ++ r.sep ++ channel) message with
  | (some e, s1) => (.error (.raw e), s1)
  | (none, s1) => (.ok (), s1)

/-- Lookup in the modelled document store (keyed association list). -/
def storeLookup {V : Type} : List (Str × V) → Str → Option V
  | [], _ => none
  | (k, v) :: rest, key => if k = key then some v else storeLookup rest key

/-- Set/overwrite a document in the modelled store. -/
def storeSet {V : Type} : List (Str × V) → Str → V → List (Str × V)
  | [], key, v => [(key, v)]
  | (k, w) :: rest, key, v =>
    if k = key then (key, v) :: rest else (k, w) :: storeSet rest key v

/-- Remove a document from the modelled store. -/
def storeRemove {V : Type} : List (Str × V) → Str → List (Str × V)
  | [], _ => []
  | (k, w) :: rest, key => if k = key then rest else (k, w) :: storeRemove rest key

/-- A client over an explicit document store, honest for the primitives
the CRUD operations consult (`existsCount`, `jsonSet`, `del`); the
remaining primitives (search, lock sentinels, pub/sub) live outside the
document table and are modelled as inert. -/
def honestClient (V : Type) : RedisClient (List (Str × V)) V where
  existsCount := fun st k => (.ok (if (storeLookup st k).isSome then 1 else 0), st)
  jsonSet := fun st k v => (none, storeSet st k v)
  del := fun st k => (.ok (if (storeLookup st k).isSome then 1 else 0), storeRemove st k)
  keysCmd := fun st _ => (.ok (st.map Prod.fst), st)
  ftSearch := fun st _ => (.ok (.arr [.int 0]), st)
  setNX := fun st _ _ _ => (.ok true, st)
  publishMsg := fun st _ _ => (none, st)

/-- Claim C6: `Create` on a key that already exists in the store returns
`AlreadyExists` and leaves the store state — in particular the stored
value under that key — unchanged: no write is issued. -/
theorem create_existing_no_write {V : Type} (r : RedisRepository)
    (st : List (Str × V)) (id : EntityIdentifier) (v : V) (key : Str)
    (hk : r.identifierToKey id = .ok key)
    (hex : (storeLookup st key).isSome = true) :
    r.Create (honestClient V) st id v = (.error .alreadyExists, st) := by
  simp [RedisRepository.Create, hk, honestClient, hex]

/-- Witness for C6: creating `user1` while `app:user1` holds the value 7
returns `AlreadyExists` and the store still maps `app:user1` to 7. -/
theorem create_existing_no_write_witness :
    defRepo.identifierToKey (.simple (strOf ("user1"))) = .ok (strOf ("app:user1")) ∧
    (storeLookup [(strOf ("app:user1"), 7)] (strOf ("app:user1"))).isSome = true ∧
    defRepo.Create (honestClient Nat) [(strOf ("app:user1"), 7)]
      (.simple (strOf ("user1"))) 9 = (.error .alreadyExists, [(strOf ("app:user1"), 7)]) :=
  ⟨by decide, by decide,
    create_existing_no_write defRepo [(strOf ("app:user1"), 7)] (.simple (strOf ("user1")))
      9 (strOf ("app:user1")) (by decide) (by decide)⟩

/-- A client whose existence check succeeds (key absent) and whose
`JSONSet` fails with the backend error `boom`. -/
def clientSetFails : RedisClient Unit Unit where
  existsCount := fun _ _ => (.ok 0, ())
  jsonSet := fun _ _ _ => (some ("boom"), ())
  del := fun _ _ => (.ok 1, ())
  keysCmd := fun _ _ => (.ok [], ())
  ftSearch := fun _ _ => (.ok (.arr [.int 0]), ())
  setNX := fun _ _ _ _ => (.ok true, ())
  publishMsg := fun _ _ _ => (some ("boom"), ())

/-- A client all of whose primitives fail with the backend error `boom`. -/
def clientAllFail : RedisClient Unit Unit where
  existsCount := fun _ _ => (.error ("boom"), ())
  jsonSet := fun _ _ _ => (some ("boom"), ())
  del := fun _ _ => (.error ("boom"), ())
  keysCmd := fun _ _ => (.error ("boom"), ())
  ftSearch := fun _ _ => (.error ("boom"), ())
  setNX := fun _ _ _ _ => (.error ("boom"), ())
  publishMsg := fun _ _ _ => (some ("boom"), ())

/-- Counterexample to C5 as stated: in `Create`, an error reported by
the final `JSONSet` backend call is returned as-is (`raw`), not wrapped
as `OperationFailed` — `errors.Is(err, ErrOperationFailed)` is false. -/
theorem backend_error_unwrapped_cex :
    defRepo.Create clientSetFails () (.simple (strOf ("user1"))) () =
      (.error (.raw ("boom")), ()) ∧
    RepoErr.isOperationFailed (.raw ("boom")) = false :=
  ⟨by decide, by decide⟩

/-- Claim C5 (amended): errors of the existence check (`Create`/
`Update`), `Del` (`Delete`/`ReleaseLock`), `Keys` (`List`), `FT.SEARCH`
(`Search`) and `SetNX` (`AcquireLock`) are wrapped as `OperationFailed`
with the cause preserved, while the final `JSONSet` error in
`Create`/`Update` and the `Publish` error are returned unwrapped (the
cause is still propagated, never swallowed, but not wrapped). -/
theorem backend_error_wrapping {σ V : Type} (c : RedisClient σ V) (r : RedisRepository) :
    (∀ s id v key e s1, r.identifierToKey id = .ok key →
      c.existsCount s key = (.error e, s1) →
      r.Create c s id v = (.error (.operationFailed e), s1)) ∧
    (∀ s id v key e s1 s2, r.identifierToKey id = .ok key →
      c.existsCount s key = (.ok 0, s1) →
      c.jsonSet s1 key v = (some e, s2) →
      r.Create c s id v = (.error (.raw e), s2)) ∧
    (∀ s id v key e s1, r.identifierToKey id = .ok key →
      c.existsCount s key = (.error e, s1) →
      r.Update c s id v = (.error (.operationFailed e), s1)) ∧
    (∀ s id v key e s1 s2, r.identifierToKey id = .ok key →
      c.existsCount s key = (.ok 1, s1) →
      c.jsonSet s1 key v = (some e, s2) →
      r.Update c s id v = (.error (.raw e), s2)) ∧
    (∀ s id key e s1, r.identifierToKey id = .ok key →
      c.del s key = (.error e, s1) →
      r.Delete c s id = (.error (.operationFailed e), s1)) ∧
    (∀ s pat patKey e s1, r.identifierToKey pat = .ok patKey →
      c.keysCmd s (patKey ++ ['*']) = (.error e, s1) →
      r.List c s pat = (.error (.operationFailed e), s1)) ∧
    (∀ s q off lim sb sd e s1,
      c.ftSearch s ⟨r.pre, q, off, lim, sb, sd⟩ = (.error e, s1) →
      r.Search c s q off lim sb sd = (.error (.operationFailed e), s1)) ∧
    (∀ s id key ttl e s1, r.identifierToKey id = .ok key →
      c.setNX s (r.lockKey key) 1 ttl = (.error e, s1) →
      r.AcquireLock c s id ttl = (.error (.operationFailed e), s1)) ∧
    (∀ s id key e s1, r.identifierToKey id = .ok key →
      c.del s (r.lockKey key) = (.error e, s1) →
      r.ReleaseLock c s id = (.error (.operationFailed e), s1)) ∧
    (∀ s ch msg e s1,
      c.publishMsg s (r.pre ++ r.sep ++ KeyPartPubSubChannel ++ r.sep ++ ch) msg =
        (some e, s1) →
      r.Publish c s ch msg = (.error (.raw e), s1)) := by
  refine ⟨?_, ?_, ?_, ?_, ?_, ?_, ?_, ?_, ?_, ?_⟩
  · intro s id v key e s1 h1 h2
    simp [RedisRepository.Create, h1, h2]
  · intro s id v key e s1 s2 h1 h2 h3
    simp [RedisRepository.Create, h1, h2, h3]
  · intro s id v key e s1 h1 h2
    simp [RedisRepository.Update, h1, h2]
  · intro s id v key e s1 s2 h1 h2 h3
    simp [RedisRepository.Update, h1, h2, h3]
  · intro s id key e s1 h1 h2
    simp [RedisRepository.Delete, h1, h2]
  · intro s pat patKey e s1 h1 h2
    simp [RedisRepository.List, h1, h2]
  · intro s q off lim sb sd e s1 h1
    simp [RedisRepository.Search, h1]
  · intro s id key ttl e s1 h1 h2
    simp [RedisRepository.AcquireLock, h1, h2]
  · intro s id key e s1 h1 h2
    simp [RedisRepository.ReleaseLock, h1, h2]
  · intro s ch msg e s1 h1
    unfold RedisRepository.Publish
    rw [h1]

/-- Witness for the amended C5, exercising a wrapped existence-check
error, the unwrapped `JSONSet` error, a wrapped search error, and the
unwrapped publish error. -/
theorem backend_error_wrapping_witness :
    defRepo.Create clientAllFail () (.simple (strOf ("user1"))) () =
      (.error (.operationFailed ("boom")), ()) ∧
    defRepo.Create clientSetFails () (.simple (strOf ("user1"))) () =
      (.error (.raw ("boom")), ()) ∧
    defRepo.Search clientAllFail () (strOf ("q")) 0 10 (strOf ("f")) (strOf ("ASC")) =
      (.error (.operationFailed ("boom")), ()) ∧
    defRepo.Publish clientAllFail () (strOf ("events")) () =
      (.error (.raw ("boom")), ()) := by
  refine ⟨?_, ?_, ?_, ?_⟩
  · exact (backend_error_wrapping clientAllFail defRepo).1 () (.simple (strOf ("user1"))) ()
      (strOf ("app:user1")) ("boom") () (by decide) rfl
  · exact (backend_error_wrapping clientSetFails defRepo).2.1 () (.simple (strOf ("user1"))) ()
      (strOf ("app:user1")) ("boom") () () (by decide) rfl rfl
  · exact (backend_error_wrapping clientAllFail defRepo).2.2.2.2.2.2.1 () (strOf ("q")) 0 10
      (strOf ("f")) (strOf ("ASC")) ("boom") () rfl
  · exact (backend_error_wrapping clientAllFail defRepo).2.2.2.2.2.2.2.2.2 () (strOf ("events"))
      () ("boom") () rfl

/-- The `List` loop keeps exactly the keys that validate and decode, in
backend order. -/
theorem listCollect_eq_filterMap (r : RedisRepository) (ks : List Str) :
    listCollect r ks = ks.filterMap r.decodeValidKey := by
  induction ks with
  | nil => rfl
  | cons k rest ih =>
    cases hv : r.validateKey k with
    | error e =>
      simp [listCollect, List.filterMap_cons, RedisRepository.decodeValidKey, hv, ih]
    | ok u =>
      cases u
      cases hd : r.keyToIdentifier k with
      | error e2 =>
        simp [listCollect, List.filterMap_cons, RedisRepository.decodeValidKey, hv, hd, ih]
      | ok id0 =>
        simp [listCollect, List.filterMap_cons, RedisRepository.decodeValidKey, hv, hd, ih]

/-- A search reply tail of alternating `(key, score)` pairs:
the keys sit at the odd absolute indices the `Search` loop reads. -/
def flattenPairs : List (Str × RVal) → List RVal
  | [] => []
  | (k, sc) :: ps => .str k :: sc :: flattenPairs ps

/-- The `Search` loop over an alternating `(key, score)` reply tail
keeps exactly the keys that validate and decode, in backend order. -/
theorem collectKeys_flattenPairs (r : RedisRepository) (ps : List (Str × RVal)) :
    collectKeys r (flattenPairs ps) = (ps.map Prod.fst).filterMap r.decodeValidKey := by
  induction ps with
  | nil => rfl
  | cons p rest ih =>
    obtain ⟨k, sc⟩ := p
    cases hd : r.decodeValidKey k with
    | none => simp [flattenPairs, collectKeys, List.filterMap_cons, hd, ih]
    | some id0 => simp [flattenPairs, collectKeys, List.filterMap_cons, hd, ih]

/-- Claim C7: when the backend enumeration succeeds, `List` (over the
returned keys) and `Search` (over the keys of the reply's
`(key, score)` pairs, with a non-zero total) return exactly the
identifiers decoded from the keys that pass validation and decoding, in
backend order, and no error: offending keys are silently skipped. -/
theorem list_search_skip_invalid {σ V : Type} (c : RedisClient σ V) (r : RedisRepository) :
    (∀ s pat patKey ks s1,
      r.identifierToKey pat = .ok patKey →
      c.keysCmd s (patKey ++ ['*']) = (.ok ks, s1) →
      r.List c s pat = (.ok (ks.filterMap r.decodeValidKey), s1)) ∧
    (∀ s q off lim sb sd n pairs s1,
      c.ftSearch s ⟨r.pre, q, off, lim, sb, sd⟩ =
        (.ok (.arr (.int n :: flattenPairs pairs)), s1) →
      n ≠ 0 →
      r.Search c s q off lim sb sd =
        (.ok ((pairs.map Prod.fst).filterMap r.decodeValidKey), s1)) := by
  constructor
  · intro s pat patKey ks s1 hk hkeys
    simp [RedisRepository.List, hk, hkeys, listCollect_eq_filterMap]
  · intro s q off lim sb sd n pairs s1 hres hn
    simp [RedisRepository.Search, hres, hn, collectKeys_flattenPairs]

/-- A client whose enumeration and search both yield one malformed key
(`bad`) and two well-formed keys. -/
def clientEnum : RedisClient Unit Unit where
  existsCount := fun _ _ => (.ok 0, ())
  jsonSet := fun _ _ _ => (none, ())
  del := fun _ _ => (.ok 1, ())
  keysCmd := fun _ _ =>
    (.ok [strOf ("bad"), strOf ("app:user:1"), strOf ("app:user:2")], ())
  ftSearch := fun _ _ =>
    (.ok (.arr (.int 2 :: flattenPairs
      [(strOf ("bad"), .int 0), (strOf ("app:user:1"), .int 1),
        (strOf ("app:user:2"), .int 2)])), ())
  setNX := fun _ _ _ _ => (.ok true, ())
  publishMsg := fun _ _ _ => (none, ())

/-- Witness for C7: one malformed and two well-formed keys give exactly
the two decoded identifiers, in backend order, for both `List` and
`Search`. -/
theorem list_search_skip_invalid_witness :
    defRepo.List clientEnum () (.simple (strOf ("user"))) =
      (.ok [.redis (strOf ("user")) (strOf ("1")),
        .redis (strOf ("user")) (strOf ("2"))], ()) ∧
    defRepo.Search clientEnum () (strOf ("q")) 0 10 (strOf ("f")) (strOf ("ASC")) =
      (.ok [.redis (strOf ("user")) (strOf ("1")),
        .redis (strOf ("user")) (strOf ("2"))], ()) := by
  constructor
  · have h := (list_search_skip_invalid clientEnum defRepo).1 () (.simple (strOf ("user")))
      (strOf ("app:user")) [strOf ("bad"), strOf ("app:user:1"), strOf ("app:user:2")] ()
      (by decide) rfl
    rw [h]
    decide
  · have h := (list_search_skip_invalid clientEnum defRepo).2 () (strOf ("q")) 0 10
      (strOf ("f")) (strOf ("ASC")) 2
      [(strOf ("bad"), .int 0), (strOf ("app:user:1"), .int 1), (strOf ("app:user:2"), .int 2)]
      () rfl (by decide)
    rw [h]
    decide

/-- Claim C8: a search reply whose leading total count is zero yields an
empty identifier sequence and no error. -/
theorem search_totalCount_zero {σ V : Type} (c : RedisClient σ V) (r : RedisRepository)
    (s : σ) (q : Str) (off lim : Int) (sb sd : Str) (rest : List RVal) (s1 : σ)
    (h : c.ftSearch s ⟨r.pre, q, off, lim, sb, sd⟩ = (.ok (.arr (.int 0 :: rest)), s1)) :
    r.Search c s q off lim sb sd = (.ok [], s1) := by
  simp [RedisRepository.Search, h]

/-- Witness for C8 at a reply `[0]`. -/
theorem search_totalCount_zero_witness :
    defRepo.Search clientSetFails () (strOf ("q")) 0 10 (strOf ("f")) (strOf ("ASC")) =
      (.ok [], ()) :=
  search_totalCount_zero clientSetFails defRepo () (strOf ("q")) 0 10 (strOf ("f"))
    (strOf ("ASC")) [] () rfl

/-- Counterexample to C9 as stated: the simple identifier of 252 `a`
characters is valid — `identifierToKey` accepts it, producing a key of
the maximal length 256 — yet its derived lock key has byte length 261
and violates the key-grammar length invariant (`AcquireLock`/
`ReleaseLock` never validate it). -/
theorem lockKey_invalid_cex :
    defRepo.identifierToKey (.simple (List.replicate 252 'a')) =
      .ok (strOf ("app:") ++ List.replicate 252 'a') ∧
    defRepo.validateKey
      (defRepo.lockKey (strOf ("app:") ++ List.replicate 252 'a')) =
      .error .invalidKeyLength :=
  ⟨by decide, by decide⟩

/-- Claim C9 (amended): every key `identifierToKey` produces passes
validation, and the derived lock key `key + separator + "lock"` of a
valid key passes validation provided the separator is a single character
that does not occur in `lock` and the lock key still fits the maximal
length; without those provisos the lock key can violate the grammar. -/
theorem produced_keys_valid :
    (∀ (r : RedisRepository) (id : EntityIdentifier) (key : Str),
      r.identifierToKey id = .ok key → r.validateKey key = .ok ()) ∧
    (∀ (r : RedisRepository) (c : Char) (key : Str),
      r.sep = [c] → c ∉ KeyPartLock →
      r.validateKey key = .ok () →
      utf8Len (r.lockKey key) ≤ MaxKeyLength →
      r.validateKey (r.lockKey key) = .ok ()) := by
  constructor
  · intro r id key hk
    cases id with
    | redis entityPre i =>
      simp only [RedisRepository.identifierToKey] at hk
      cases hve : r.validateEntityPre entityPre with
      | error e => rw [hve] at hk; cases hk
      | ok u => rw [hve] at hk; exact (createKey_ok r [entityPre, i] key hk).1
    | simple s =>
      simp only [RedisRepository.identifierToKey] at hk
      exact (createKey_ok r [s] key hk).1
    | other => simp [RedisRepository.identifierToKey] at hk
  · intro r c key hsep hcl hv hlen
    rw [validateKey_eq_ok] at hv
    obtain ⟨⟨hb1, hb2⟩, hm, hp, ⟨hs2, hs1⟩, ha⟩ := hv
    rw [validKeyMatch_eq_true] at hm
    rw [List.isPrefixOf_iff_prefix, hsep] at hp
    rw [hsep, goSplit_singleton] at hs2 hs1 ha
    obtain ⟨t, ht⟩ := hp
    have hcmem : c ∈ key := by
      rw [← ht]; simp
    have hlk : r.lockKey key = key ++ c :: KeyPartLock := by
      simp [RedisRepository.lockKey, hsep]
    rw [validateKey_eq_ok, hsep]
    refine ⟨⟨?_, hlen⟩, ?_, ?_, ⟨?_, ?_⟩, ?_⟩
    · rw [hlk, utf8Len_append]
      omega
    · rw [validKeyMatch_eq_true, hlk]
      refine ⟨by simp, ?_⟩
      intro ch hch
      rcases List.mem_append.mp hch with hch | hch
      · exact hm.2 ch hch
      · rcases List.mem_cons.mp hch with rfl | hch
        · exact hm.2 ch hcmem
        · have hall : ∀ x ∈ KeyPartLock, isValidKeyChar x = true := by decide
          exact hall ch hch
    · rw [List.isPrefixOf_iff_prefix, hlk]
      exact List.IsPrefix.trans ⟨t, ht⟩ (List.prefix_append key (c :: KeyPartLock))
    · rw [hlk, goSplit_singleton, splitSep_append, splitSep_sepFree c KeyPartLock hcl]
      simp only [List.length_append, List.length_cons, List.length_nil]
      omega
    · rw [hlk, goSplit_singleton, splitSep_append, splitSep_sepFree c KeyPartLock hcl]
      rw [List.getElem?_append, if_pos (by omega)]
      exact hs1
    · rw [hlk, goSplit_singleton, splitSep_append, splitSep_sepFree c KeyPartLock hcl]
      rw [anyIsEmpty_eq_false]
      intro p hp2
      rcases List.mem_append.mp hp2 with hp2 | hp2
      · exact (anyIsEmpty_eq_false _).mp ha p hp2
      · rw [List.mem_singleton.mp hp2]
        decide

/-- Witness for the amended C9: the key of `{user, 42}` validates, and
so does its derived lock key `app:user:42:lock`. -/
theorem produced_keys_valid_witness :
    (defRepo.identifierToKey (.redis (strOf ("user")) (strOf ("42"))) =
        .ok (strOf ("app:user:42")) ∧
      defRepo.validateKey (strOf ("app:user:42")) = .ok ()) ∧
    (defRepo.sep = [':'] ∧ ':' ∉ KeyPartLock ∧
      utf8Len (defRepo.lockKey (strOf ("app:user:42"))) ≤ MaxKeyLength ∧
      defRepo.validateKey (defRepo.lockKey (strOf ("app:user:42"))) = .ok ()) := by
  refine ⟨⟨by decide, ?_⟩, by decide, by decide, by decide, ?_⟩
  · exact produced_keys_valid.1 defRepo (.redis (strOf ("user")) (strOf ("42")))
      (strOf ("app:user:42")) (by decide)
  · exact produced_keys_valid.2 defRepo ':' (strOf ("app:user:42")) (by decide) (by decide)
      (by decide) (by decide)
